import Mathlib

/-!
Shallow embedding of the cost-allocation and cash-reinvestment engine of the
nanis-essentials-inventory application.

Sources embedded:
- `src/src/types/models.ts` — data model (fields irrelevant to the engine, such
  as names, images, timestamps and ids generated by `uid()`/`nowIso()`, are
  omitted: nothing the engine computes reads them).
- `src/src/lib/dataConverter.ts` — `RevenueService` (cash ledger, payment
  breakdown, purchase/transaction processors).
- `src/src/components/pages/inventory/InventoryForm.tsx` — the purchase form's
  `save` (Allocation Engine + stock/cost side effects), `hasQuantityChanges`,
  and the item form's auto pricing.
- `src/unnamed/part_006` — `handleRecalculatePrices` (Recalculation Sweep).

Numbers are modelled as ℚ.  Every division in the source is guarded by a
positivity/nonzero test on its denominator; the guards are transcribed as-is,
so the rational model agrees with the JavaScript floating-point semantics up
to rounding (the properties proved here are exact identities of the rational
dataflow).  JavaScript truthiness of a number (`x ? … : …`) is transcribed as
`x ≠ 0`.
-/

namespace NanisInventory

/-- PaymentSource from `models.ts`: `'external' | 'revenue' | 'mixed'`. -/
inductive PaymentSource where
  | external
  | revenue
  | mixed
deriving DecidableEq, Repr

/-- TransactionType from `models.ts`: `'expense' | 'fee' | 'income' | 'discount'`. -/
inductive TransactionType where
  | expense
  | fee
  | income
  | discount
deriving DecidableEq, Repr

/-- InventoryItem (engine-relevant fields of `models.ts`). -/
structure InventoryItem where
  id : String
  stock : ℚ
  weightLbs : Option ℚ := none
  costPreShipping : Option ℚ := none
  costPostShipping : Option ℚ := none
  minPrice : Option ℚ := none
  maxPrice : Option ℚ := none
  minProfit : Option ℚ := none
  maxProfit : Option ℚ := none
deriving DecidableEq, Repr

/-- PurchaseLine from `models.ts`; the last four fields are the derived
allocations, written only by the Allocation Engine. -/
structure PurchaseLine where
  itemId : String
  quantity : ℚ
  unitCost : ℚ
  hasSubItems : Bool := false
  subItemsQty : Option ℚ := none
  perUnitTax : Option ℚ := none
  perUnitShippingUS : Option ℚ := none
  perUnitShippingIntl : Option ℚ := none
  unitCostPostShipping : Option ℚ := none
deriving DecidableEq, Repr

/-- Purchase (engine-relevant fields of `models.ts`). -/
structure Purchase where
  id : String
  lines : List PurchaseLine
  subtotal : ℚ := 0
  tax : ℚ := 0
  shippingUS : ℚ := 0
  shippingIntl : ℚ := 0
  weightLbs : ℚ := 0
  totalUnits : ℚ := 0
  totalCost : ℚ := 0
  cashUsed : Option ℚ := none
  paymentSource : Option PaymentSource := none
deriving DecidableEq, Repr

/-- Sale (engine-relevant fields: the cash ledger reads only `totalAmount`). -/
structure Sale where
  totalAmount : ℚ
deriving DecidableEq, Repr

/-- CashWithdrawal from `models.ts` (`id`/`withdrawnAt`, generated by
`uid()`/`nowIso()`, are omitted: no engine computation reads them). -/
structure CashWithdrawal where
  amount : ℚ
  reason : String
  linkedPurchaseId : Option String := none
  notes : Option String := none
deriving DecidableEq, Repr

/-- Transaction (engine-relevant fields of `models.ts`). -/
structure Transaction where
  type : TransactionType
  amount : ℚ
  description : String := ""
  category : String := ""
  paymentSource : Option PaymentSource := none
  cashAmount : Option ℚ := none
  externalAmount : Option ℚ := none
deriving DecidableEq, Repr

/-- Settings from `models.ts` with `DEFAULT_SETTINGS`. -/
structure Settings where
  weightCostPerLb : ℚ := 7
  taxRatePercent : ℚ := 8.775
deriving DecidableEq, Repr

/-- DB snapshot from `models.ts` (branches omitted: the engine never reads them). -/
structure DB where
  items : List InventoryItem
  purchases : List Purchase
  sales : List Sale
  settings : Settings
  cashWithdrawals : List CashWithdrawal
  transactions : List Transaction
deriving DecidableEq, Repr

/-! ## Allocation Engine (purchase form `save` in `InventoryForm.tsx`) -/

/-- Billable units of a line: `l.quantity + (l.hasSubItems ? (l.subItemsQty ?? 0) : 0)`,
inlined at every use site in the source ("billable units" in the glossary). -/
def lineUnits (l : PurchaseLine) : ℚ :=
  l.quantity + (if l.hasSubItems then l.subItemsQty.getD 0 else 0)

/-- Item weight lookup: `items.find(item => item.id === itemId)?.weightLbs ?? 0`. -/
def itemWeight (items : List InventoryItem) (itemId : String) : ℚ :=
  ((items.find? fun it => it.id = itemId).bind (fun it => it.weightLbs)).getD 0

/-- `totalUnits`: `ls.reduce((acc, l) => acc + l.quantity + (l.hasSubItems ? (l.subItemsQty ?? 0) : 0), 0)`. -/
def totalUnits (ls : List PurchaseLine) : ℚ :=
  ls.foldl (fun acc l => acc + lineUnits l) 0

/-- Total actual weight: `lines.reduce((acc, l) => acc + itemWeight * lineUnits, 0)`. -/
def totalWeight (items : List InventoryItem) (ls : List PurchaseLine) : ℚ :=
  ls.foldl (fun acc l => acc + itemWeight items l.itemId * lineUnits l) 0

/-- Per-line allocation of the save path (`InventoryForm.tsx`, the body of
`lines.map(l => …)` inside `save`), with the purchase-level aggregates
`units`/`totWeight` passed in. -/
def allocLine (items : List InventoryItem) (taxRate shipUS shipIntl units totWeight : ℚ)
    (l : PurchaseLine) : PurchaseLine :=
  let w := itemWeight items l.itemId
  let lus := lineUnits l
  let lineWeight := w * lus
  let perUnitTax := l.unitCost * (taxRate / 100)
  let perUnitShippingUS := if shipUS > 0 ∧ units ≠ 0 then shipUS / units else 0
  let weightRatio := if totWeight > 0 then lineWeight / totWeight else 0
  let perUnitShippingIntl := if lus > 0 then (shipIntl * weightRatio) / lus else 0
  { l with
    perUnitTax := some perUnitTax
    perUnitShippingUS := some perUnitShippingUS
    perUnitShippingIntl := some perUnitShippingIntl
    unitCostPostShipping :=
      some (l.unitCost + perUnitTax + perUnitShippingUS + perUnitShippingIntl) }

/-- The Allocation Engine of the save path: `const enriched = lines.map(l => …)`. -/
def allocateLines (items : List InventoryItem) (taxRate shipUS shipIntl : ℚ)
    (lines : List PurchaseLine) : List PurchaseLine :=
  lines.map (allocLine items taxRate shipUS shipIntl (totalUnits lines) (totalWeight items lines))

/-! ## Recalculation Sweep (`handleRecalculatePrices`, `src/unnamed/part_006`)

The sweep iterates over every stored purchase; its per-purchase line
recomputation is embedded here.  Item weights are looked up in `updatedItems`,
but the sweep only ever rewrites item cost/price fields, never `weightLbs`,
so the lookups agree with the original item list. -/

/-- Per-line recomputation of `handleRecalculatePrices` (the body of
`lines.map(l => …)`).  The shipping formulas coincide with `allocLine`; the
tax formula redistributes the purchase's `tax` footer by cost share:
`perUnitTax = subtotal > 0 ? (tax * lineCost) / (subtotal * l.quantity) : 0`
with `lineCost = l.quantity * l.unitCost`. -/
def recalcLine (items : List InventoryItem) (tax shippingUS shippingIntl subtotal units totWeight : ℚ)
    (l : PurchaseLine) : PurchaseLine :=
  let w := itemWeight items l.itemId
  let lus := lineUnits l
  let lineWeight := w * lus
  let lineCost := l.quantity * l.unitCost
  let perUnitTax := if subtotal > 0 then (tax * lineCost) / (subtotal * l.quantity) else 0
  let perUnitShippingUS := if shippingUS > 0 ∧ units ≠ 0 then shippingUS / units else 0
  let weightRatio := if totWeight > 0 then lineWeight / totWeight else 0
  let perUnitShippingIntl := if lus > 0 then (shippingIntl * weightRatio) / lus else 0
  { l with
    perUnitTax := some perUnitTax
    perUnitShippingUS := some perUnitShippingUS
    perUnitShippingIntl := some perUnitShippingIntl
    unitCostPostShipping :=
      some (l.unitCost + perUnitTax + perUnitShippingUS + perUnitShippingIntl) }

/-- Recalculation Sweep for one purchase: `const updatedLines = lines.map(l => …)`
using the purchase's own footer totals as fixed inputs. -/
def recalcLines (items : List InventoryItem) (tax shippingUS shippingIntl subtotal : ℚ)
    (lines : List PurchaseLine) : List PurchaseLine :=
  lines.map
    (recalcLine items tax shippingUS shippingIntl subtotal (totalUnits lines) (totalWeight items lines))

/-! ## Stock and cost side effects of the purchase form `save` -/

/-- Helper from `InventoryForm.tsx`: `hasQuantityChanges(oldLines, newLines)` —
`true` when the line counts differ, or some old line has no new line with the
same `itemId` (first match by `find`), or the matched pair's billable units differ. -/
def hasQuantityChanges (oldLines newLines : List PurchaseLine) : Bool :=
  if oldLines.length ≠ newLines.length then true
  else oldLines.any fun oldLine =>
    match newLines.find? (fun nl => nl.itemId = oldLine.itemId) with
    | none => true
    | some newLine => decide (lineUnits oldLine ≠ lineUnits newLine)

/-- Cost/price refresh applied to an item from a purchase line inside `save`:
`costPre = l.unitCost`, `costPost = l.unitCostPostShipping ?? l.unitCost`,
`autoMin = Math.ceil(costPost * 1.25)`, `autoMax = Math.ceil(costPost * 1.4)`,
profits `autoMin - costPost` / `autoMax - costPost`. -/
def refreshCostFields (l : PurchaseLine) (it : InventoryItem) : InventoryItem :=
  let costPre := l.unitCost
  let costPost := l.unitCostPostShipping.getD l.unitCost
  let autoMin : ℚ := (⌈costPost * 1.25⌉ : ℤ)
  let autoMax : ℚ := (⌈costPost * 1.4⌉ : ℤ)
  { it with
    costPreShipping := some costPre
    costPostShipping := some costPost
    minPrice := some autoMin
    maxPrice := some autoMax
    minProfit := some (autoMin - costPost)
    maxProfit := some (autoMax - costPost) }

/-- One step of the stock-moving branch of `save` (`shouldUpdateInventory` true):
per enriched line `l`, the matching item first has the old purchase's
contribution reversed (`Math.max(0, currentStock - oldUnits)`, old line found
by `itemId` in `initial.lines`), then the new line's billable units added,
and its cost/price fields refreshed. -/
def stockStep (initial : Option Purchase) (l : PurchaseLine) (it : InventoryItem) :
    InventoryItem :=
  if it.id = l.itemId then
    let unitsLine := lineUnits l
    let currentStock :=
      match initial with
      | some ip =>
        match ip.lines.find? (fun oldL => oldL.itemId = l.itemId) with
        | some oldLine => max 0 (it.stock - lineUnits oldLine)
        | none => it.stock
      | none => it.stock
    { refreshCostFields l it with stock := currentStock + unitsLine }
  else it

/-- One step of the cost-only branch of `save` (`shouldUpdateInventory` false):
cost/price fields refreshed, stock untouched. -/
def costStep (l : PurchaseLine) (it : InventoryItem) : InventoryItem :=
  if it.id = l.itemId then refreshCostFields l it else it

/-- The item-update phase of `save`: picks the stock-moving branch for a new
purchase or when `hasQuantityChanges` reports a change, else the cost-only
branch; each enriched line maps a step over the accumulated item list
(`enriched.forEach(l => { itemsUpdated = itemsUpdated.map(…) })`). -/
def updateItemsForSave (initial : Option Purchase) (enriched : List PurchaseLine)
    (items : List InventoryItem) : List InventoryItem :=
  let shouldUpdateInventory :=
    match initial with
    | none => true
    | some ip => hasQuantityChanges ip.lines enriched
  if shouldUpdateInventory then
    enriched.foldl (fun acc l => acc.map (stockStep initial l)) items
  else
    enriched.foldl (fun acc l => acc.map (costStep l)) items

/-! ## Pricing at manual item entry (`InventoryForm.tsx`, item form) -/

/-- Price band record (minPrice, maxPrice, minProfit, maxProfit). -/
structure PricingBand where
  minPrice : ℚ
  maxPrice : ℚ
  minProfit : ℚ
  maxProfit : ℚ
deriving DecidableEq, Repr

/-- Auto pricing of the manual item-entry form when the user does not override
the suggested prices: `autoMin = Math.ceil((costPostShipping || 0) * 1.2)`,
`autoMax = Math.ceil((costPostShipping || 0) * 1.3)`, and profits
`minPrice - (costPostShipping || costPreShipping || 0)` /
`maxPrice - (costPostShipping || costPreShipping || 0)`
(JavaScript `x || y` on numbers: `y` when `x = 0`, else `x`). -/
def itemEntryPricing (costPostShipping costPreShipping : ℚ) : PricingBand :=
  let autoMin : ℚ := (⌈costPostShipping * 1.2⌉ : ℤ)
  let autoMax : ℚ := (⌈costPostShipping * 1.3⌉ : ℤ)
  let base := if costPostShipping ≠ 0 then costPostShipping
    else if costPreShipping ≠ 0 then costPreShipping else 0
  ⟨autoMin, autoMax, autoMin - base, autoMax - base⟩

/-! ## Cash/Revenue Ledger (`RevenueService` in `dataConverter.ts`) -/

/-- `calculateTotalRevenue`: `db.sales.reduce((total, sale) => total + sale.totalAmount, 0)`. -/
def calculateTotalRevenue (db : DB) : ℚ :=
  db.sales.foldl (fun total sale => total + sale.totalAmount) 0

/-- `calculateTotalWithdrawn`: `db.cashWithdrawals.reduce((total, w) => total + w.amount, 0)`. -/
def calculateTotalWithdrawn (db : DB) : ℚ :=
  db.cashWithdrawals.foldl (fun total w => total + w.amount) 0

/-- `calculateTotalIncome`: sum of `t.amount` over `db.transactions` with `type === 'income'`. -/
def calculateTotalIncome (db : DB) : ℚ :=
  (db.transactions.filter fun t => t.type = .income).foldl (fun total t => total + t.amount) 0

/-- `calculateAvailableCash`: `Math.max(0, totalRevenue + totalIncome - totalWithdrawn)`. -/
def calculateAvailableCash (db : DB) : ℚ :=
  max 0 (calculateTotalRevenue db + calculateTotalIncome db - calculateTotalWithdrawn db)

/-- `canWithdrawCash(db, amount)`: `false` when `amount <= 0`, else
`amount <= calculateAvailableCash(db)`. -/
def canWithdrawCash (db : DB) (amount : ℚ) : Bool :=
  if amount ≤ 0 then false
  else decide (amount ≤ calculateAvailableCash db)

/-- `createCashWithdrawal` (the generated `id`/`withdrawnAt` are omitted). -/
def createCashWithdrawal (amount : ℚ) (reason : String)
    (linkedPurchaseId : Option String := none) (notes : Option String := none) :
    CashWithdrawal :=
  { amount, reason, linkedPurchaseId, notes }

/-- Result record of `calculatePaymentBreakdown`. -/
structure PaymentBreakdown where
  cashUsed : ℚ
  externalPayment : ℚ
  paymentSource : PaymentSource
deriving DecidableEq, Repr

/-- `calculatePaymentBreakdown(totalCost, cashToUse)`: a pure split taking only
the two amounts (no state argument, hence no availability check):
`clampedCashUsed = Math.max(0, Math.min(cashToUse, totalCost))`,
`externalPayment = totalCost - clampedCashUsed`, and the source tag per the
zero pattern of the two sides. -/
def calculatePaymentBreakdown (totalCost cashToUse : ℚ) : PaymentBreakdown :=
  let clampedCashUsed := max 0 (min cashToUse totalCost)
  let externalPayment := totalCost - clampedCashUsed
  let paymentSource : PaymentSource :=
    if clampedCashUsed = 0 then .external
    else if externalPayment = 0 then .revenue
    else .mixed
  { cashUsed := clampedCashUsed, externalPayment, paymentSource }

/-- Result record of `processPurchaseWithCash` on the non-throwing path. -/
structure PurchaseCashResult where
  updatedDb : DB
  withdrawal : Option CashWithdrawal
  paymentBreakdown : PaymentBreakdown
deriving DecidableEq, Repr

/-- `processPurchaseWithCash(db, purchase, cashToUse, reason, notes)`:
throws (`Except.error`) unless `canWithdrawCash(db, cashToUse)`; otherwise
computes the breakdown, creates a withdrawal linked to the purchase when
`cashUsed > 0`, rewrites the purchase's `cashUsed`/`paymentSource`, and
returns a fresh `DB` value (the input is never mutated). -/
def processPurchaseWithCash (db : DB) (purchase : Purchase) (cashToUse : ℚ)
    (withdrawalReason : String) (withdrawalNotes : Option String := none) :
    Except String PurchaseCashResult :=
  if !canWithdrawCash db cashToUse then
    .error "Insufficient cash available for withdrawal"
  else
    let paymentBreakdown := calculatePaymentBreakdown purchase.totalCost cashToUse
    let withdrawal : Option CashWithdrawal :=
      if paymentBreakdown.cashUsed > 0 then
        some (createCashWithdrawal paymentBreakdown.cashUsed withdrawalReason
          (some purchase.id) withdrawalNotes)
      else none
    let updatedWithdrawals :=
      match withdrawal with
      | some w => db.cashWithdrawals ++ [w]
      | none => db.cashWithdrawals
    let updatedPurchase :=
      { purchase with
        cashUsed := some paymentBreakdown.cashUsed
        paymentSource := some paymentBreakdown.paymentSource }
    let updatedPurchases :=
      db.purchases.map fun p => if p.id = purchase.id then updatedPurchase else p
    .ok
      { updatedDb := { db with purchases := updatedPurchases, cashWithdrawals := updatedWithdrawals }
        withdrawal
        paymentBreakdown }

/-- Cash a transaction tries to withdraw (`cashToWithdraw` in
`processTransactionWithCash`): full `amount` for `paymentSource === 'revenue'`;
`cashAmount` for `'mixed'` when that field is truthy (present and nonzero);
else `0`. -/
def txRequiredCash (t : Transaction) : ℚ :=
  if t.paymentSource = some .revenue then t.amount
  else if t.paymentSource = some .mixed ∧ t.cashAmount.getD 0 ≠ 0 then t.cashAmount.getD 0
  else 0

/-- Result record of `processTransactionWithCash`. -/
structure TransactionCashResult where
  updatedDb : DB
  withdrawals : List CashWithdrawal
  error : Option String := none
deriving DecidableEq, Repr

/-- Display label of a transaction type, used in the withdrawal notes string. -/
def TransactionType.label : TransactionType → String
  | .expense => "expense"
  | .fee => "fee"
  | .income => "income"
  | .discount => "discount"

/-- `processTransactionWithCash(db, transaction)`: income/discount pass through
unchanged; for expense/fee the required cash is computed (`txRequiredCash`),
and when positive either rejected inline with the unmodified `db` plus an
error string (insufficient cash) or recorded as a `Transaction:`-prefixed
withdrawal appended to the list.  The error string's interpolated amounts
(`toFixed(2)` formatting) are omitted. -/
def processTransactionWithCash (db : DB) (t : Transaction) : TransactionCashResult :=
  if t.type = .income ∨ t.type = .discount then
    { updatedDb := db, withdrawals := [], error := none }
  else
    let cashToWithdraw := txRequiredCash t
    if cashToWithdraw > 0 then
      if !canWithdrawCash db cashToWithdraw then
        { updatedDb := db
          withdrawals := []
          error := some "Insufficient cash available." }
      else
        let w := createCashWithdrawal cashToWithdraw ("Transaction: " ++ t.description)
          none (some (t.type.label ++ " - " ++ t.category))
        { updatedDb := { db with cashWithdrawals := db.cashWithdrawals ++ [w] }
          withdrawals := [w]
          error := none }
    else
      { updatedDb := db, withdrawals := [], error := none }

/-! ## Claim-language helpers

These definitions exist only to state the claims (they follow the spec's
wording, not any source function) and are used when a claim speaks about
quantities the code never names directly. -/

/-- Per-item billable-unit total of a line list: the billable units of all
lines referencing the given item, summed (wording of the spec's
stock-path criterion). -/
def perItemBillableTotal (lines : List PurchaseLine) (itemId : String) : ℚ :=
  ((lines.filter fun l => l.itemId = itemId).map lineUnits).sum

/-- Per-item restatement of the cost-only branch of `save`: the cost refresh
of every enriched line folded over a single item (the branch maps each step
over the whole item list, which commutes to this per-item fold). -/
def costRefreshItem (enriched : List PurchaseLine) (it : InventoryItem) : InventoryItem :=
  enriched.foldl (fun i l => costStep l i) it

/-- The last enriched line referencing a given item, if any: in the `save`
iteration order, the later line wins when an item appears on several lines. -/
def lastLineFor (enriched : List PurchaseLine) (itemId : String) : Option PurchaseLine :=
  (enriched.filter fun l => l.itemId = itemId).getLast?

/-! ## General lemmas about the embedded operations -/

theorem foldl_add_eq {α : Type} (f : α → ℚ) :
    ∀ (ls : List α) (c : ℚ), ls.foldl (fun a x => a + f x) c = c + (ls.map f).sum := by
  intro ls
  induction ls with
  | nil => intro c; simp
  | cons x xs ih => intro c; simp [ih, add_assoc]

theorem totalUnits_eq_sum (ls : List PurchaseLine) :
    totalUnits ls = (ls.map lineUnits).sum := by
  simpa using foldl_add_eq lineUnits ls 0

theorem totalWeight_eq_sum (items : List InventoryItem) (ls : List PurchaseLine) :
    totalWeight items ls = (ls.map fun l => itemWeight items l.itemId * lineUnits l).sum := by
  simpa using foldl_add_eq (fun l => itemWeight items l.itemId * lineUnits l) ls 0

@[simp] theorem allocLine_itemId (items : List InventoryItem) (r s i u w : ℚ) (l : PurchaseLine) :
    (allocLine items r s i u w l).itemId = l.itemId := rfl

@[simp] theorem allocLine_unitCost (items : List InventoryItem) (r s i u w : ℚ) (l : PurchaseLine) :
    (allocLine items r s i u w l).unitCost = l.unitCost := rfl

@[simp] theorem lineUnits_allocLine (items : List InventoryItem) (r s i u w : ℚ) (l : PurchaseLine) :
    lineUnits (allocLine items r s i u w l) = lineUnits l := rfl

@[simp] theorem allocLine_perUnitTax (items : List InventoryItem) (r s i u w : ℚ) (l : PurchaseLine) :
    (allocLine items r s i u w l).perUnitTax = some (l.unitCost * (r / 100)) := rfl

@[simp] theorem allocLine_perUnitShippingUS (items : List InventoryItem) (r s i u w : ℚ)
    (l : PurchaseLine) :
    (allocLine items r s i u w l).perUnitShippingUS =
      some (if s > 0 ∧ u ≠ 0 then s / u else 0) := rfl

@[simp] theorem allocLine_perUnitShippingIntl (items : List InventoryItem) (r s i u w : ℚ)
    (l : PurchaseLine) :
    (allocLine items r s i u w l).perUnitShippingIntl =
      some (if lineUnits l > 0 then
        (i * (if w > 0 then itemWeight items l.itemId * lineUnits l / w else 0)) / lineUnits l
        else 0) := rfl

theorem canWithdrawCash_iff (db : DB) (a : ℚ) :
    canWithdrawCash db a = true ↔ 0 < a ∧ a ≤ calculateAvailableCash db := by
  unfold canWithdrawCash
  by_cases ha : a ≤ 0
  · simp only [ha, if_true]
    constructor
    · intro h; cases h
    · rintro ⟨h1, _⟩; exact absurd h1 (not_lt.mpr ha)
  · have h1 : 0 < a := lt_of_not_le ha
    simp [ha, h1]

/-! ## Claim C6 -/

/-- C6: for every dataset, `availableCash` equals
`max(0, totalRevenue + totalIncome - totalWithdrawn)` and is never negative,
however the withdrawal list was constructed. -/
theorem availableCash_clamped_nonneg (db : DB) :
    calculateAvailableCash db =
      max 0 (calculateTotalRevenue db + calculateTotalIncome db - calculateTotalWithdrawn db) ∧
    0 ≤ calculateAvailableCash db :=
  ⟨rfl, le_max_left 0 _⟩

/-! ## Claim C3 -/

/-- C3: for `totalCost ≥ 0`, `calculatePaymentBreakdown` clamps `cashToUse`
to `[0, totalCost]`, splits exactly (`cashUsed + externalPayment = totalCost`),
and tags the source by the zero pattern of the two sides; it is a pure split
of its two numeric arguments (it takes no state, hence no availability check). -/
theorem paymentBreakdown_complete (totalCost cashToUse : ℚ) (h : 0 ≤ totalCost) :
    (calculatePaymentBreakdown totalCost cashToUse).cashUsed = max 0 (min cashToUse totalCost) ∧
    0 ≤ (calculatePaymentBreakdown totalCost cashToUse).cashUsed ∧
    (calculatePaymentBreakdown totalCost cashToUse).cashUsed ≤ totalCost ∧
    (calculatePaymentBreakdown totalCost cashToUse).externalPayment =
      totalCost - (calculatePaymentBreakdown totalCost cashToUse).cashUsed ∧
    (calculatePaymentBreakdown totalCost cashToUse).cashUsed +
      (calculatePaymentBreakdown totalCost cashToUse).externalPayment = totalCost ∧
    ((calculatePaymentBreakdown totalCost cashToUse).paymentSource = PaymentSource.external ↔
      (calculatePaymentBreakdown totalCost cashToUse).cashUsed = 0) ∧
    ((calculatePaymentBreakdown totalCost cashToUse).paymentSource = PaymentSource.revenue ↔
      0 < (calculatePaymentBreakdown totalCost cashToUse).cashUsed ∧
        (calculatePaymentBreakdown totalCost cashToUse).externalPayment = 0) ∧
    ((calculatePaymentBreakdown totalCost cashToUse).paymentSource = PaymentSource.mixed ↔
      0 < (calculatePaymentBreakdown totalCost cashToUse).cashUsed ∧
        (calculatePaymentBreakdown totalCost cashToUse).externalPayment ≠ 0) := by
  set b := calculatePaymentBreakdown totalCost cashToUse with hb
  have hcu : b.cashUsed = max 0 (min cashToUse totalCost) := rfl
  have hep : b.externalPayment = totalCost - b.cashUsed := rfl
  have h0 : 0 ≤ b.cashUsed := by rw [hcu]; exact le_max_left _ _
  have hle : b.cashUsed ≤ totalCost := by
    rw [hcu]; exact max_le h (min_le_right _ _)
  have hps : b.paymentSource = if b.cashUsed = 0 then PaymentSource.external
      else if b.externalPayment = 0 then PaymentSource.revenue else PaymentSource.mixed := rfl
  have hpos : (0 < b.cashUsed) ↔ b.cashUsed ≠ 0 :=
    ⟨fun hh => ne_of_gt hh, fun hne => lt_of_le_of_ne h0 (Ne.symm hne)⟩
  refine ⟨hcu, h0, hle, hep, by rw [hep]; ring, ?_, ?_, ?_⟩ <;>
    rw [hps] <;> by_cases hz : b.cashUsed = 0 <;> by_cases he : b.externalPayment = 0 <;>
      simp [hz, he, hpos]

/-! ## Claim C4 -/

/-- C4: `processPurchaseWithCash` throws `InsufficientFunds` exactly when
`canWithdrawCash` is false, that is unless `0 < cashToUse ≤ availableCash`;
on the throwing path no updated state is produced (the embedding is a pure
function of the input snapshot, the caller's `db` value is untouched). -/
theorem processPurchase_insufficient (db : DB) (p : Purchase) (c : ℚ)
    (reason : String) (notes : Option String) :
    (processPurchaseWithCash db p c reason notes =
        Except.error "Insufficient cash available for withdrawal"
      ↔ ¬ (0 < c ∧ c ≤ calculateAvailableCash db)) ∧
    (canWithdrawCash db c = true ↔ (0 < c ∧ c ≤ calculateAvailableCash db)) := by
  refine ⟨?_, canWithdrawCash_iff db c⟩
  by_cases hcw : canWithdrawCash db c <;>
    simp [processPurchaseWithCash, hcw, ← canWithdrawCash_iff db c]

/-- Witness for C3 at `totalCost = 100`, `cashToUse = 30`. -/
theorem paymentBreakdown_complete_witness :
    (calculatePaymentBreakdown 100 30).cashUsed + (calculatePaymentBreakdown 100 30).externalPayment
      = 100 :=
  (paymentBreakdown_complete 100 30 (by norm_num)).2.2.2.2.1

/-! ## Claim C2 -/

/-- C2 (amended): the three per-line allocation components reconcile exactly
with the footer totals whenever the purchase's `subtotal` equals the billable
cost base Σ(`unitCost * billableUnits`), `tax` was auto-computed as
`subtotal * rate/100`, the purchase has billable units (`totalUnits ≠ 0`,
every line's billable units nonnegative), `shippingUS ≥ 0` and the referenced
items carry positive total weight.  (Exact equality in ℚ implies the claimed
0.01 tolerance.)  The claim as frozen — premised only on the tax/intl
auto-derivations — fails on bundle lines, see the counterexample. -/
theorem allocation_reconciliation (items : List InventoryItem)
    (rate shipUS shipIntl subtotal tax : ℚ) (lines : List PurchaseLine)
    (hsub : (lines.map fun l => l.unitCost * lineUnits l).sum = subtotal)
    (htax : tax = subtotal * (rate / 100))
    (hunits : totalUnits lines ≠ 0)
    (hus : 0 ≤ shipUS)
    (hw : 0 < totalWeight items lines)
    (hnn : ∀ l ∈ lines, 0 ≤ lineUnits l) :
    ((allocateLines items rate shipUS shipIntl lines).map
      fun al => al.perUnitTax.getD 0 * lineUnits al).sum = tax ∧
    ((allocateLines items rate shipUS shipIntl lines).map
      fun al => al.perUnitShippingUS.getD 0 * lineUnits al).sum = shipUS ∧
    ((allocateLines items rate shipUS shipIntl lines).map
      fun al => al.perUnitShippingIntl.getD 0 * lineUnits al).sum = shipIntl := by
  have hWne : totalWeight items lines ≠ 0 := ne_of_gt hw
  refine ⟨?_, ?_, ?_⟩
  · rw [allocateLines, List.map_map]
    have h2 : (lines.map fun l => (rate / 100) * (l.unitCost * lineUnits l)).sum = tax := by
      rw [List.sum_map_mul_left, hsub, htax]; ring
    rw [← h2]
    congr 1
    apply List.map_congr_left
    intro l _
    simp [Function.comp]
    ring
  · rw [allocateLines, List.map_map]
    rcases eq_or_lt_of_le hus with h0 | h0
    · have hmap : lines.map
          ((fun al => al.perUnitShippingUS.getD 0 * lineUnits al) ∘
            allocLine items rate shipUS shipIntl (totalUnits lines) (totalWeight items lines)) =
          lines.map fun _ => (0 : ℚ) := by
        apply List.map_congr_left
        intro l _
        simp [Function.comp, ← h0]
      rw [hmap, ← h0]
      simp
    · have hmap : lines.map
          ((fun al => al.perUnitShippingUS.getD 0 * lineUnits al) ∘
            allocLine items rate shipUS shipIntl (totalUnits lines) (totalWeight items lines)) =
          lines.map fun l => (shipUS / totalUnits lines) * lineUnits l := by
        apply List.map_congr_left
        intro l _
        simp [Function.comp, h0, hunits]
      rw [hmap, List.sum_map_mul_left, ← totalUnits_eq_sum,
        div_mul_cancel₀ _ hunits]
  · rw [allocateLines, List.map_map]
    have hmap : lines.map
        ((fun al => al.perUnitShippingIntl.getD 0 * lineUnits al) ∘
          allocLine items rate shipUS shipIntl (totalUnits lines) (totalWeight items lines)) =
        lines.map fun l =>
          (shipIntl / totalWeight items lines) * (itemWeight items l.itemId * lineUnits l) := by
      apply List.map_congr_left
      intro l hl
      have hnl := hnn l hl
      simp only [Function.comp_apply, allocLine_perUnitShippingIntl, Option.getD_some,
        lineUnits_allocLine, if_pos hw]
      rcases eq_or_lt_of_le hnl with hz | hz
      · rw [← hz]; simp
      · rw [if_pos hz]
        field_simp
        ring
    rw [hmap, List.sum_map_mul_left, ← totalWeight_eq_sum, div_mul_cancel₀ _ hWne]

/-- C2 counterexample: a single bundle line (`quantity = 1`,
`hasSubItems = true`, `subItemsQty = 1`, `unitCost = 100`, hence billable
units 2) in a purchase whose footer satisfies both frozen premises
(`tax = 10 = subtotal * rate/100` with `subtotal = 100 = Σ quantity*unitCost`
and `rate = 10`; `shippingIntl = 0 = weightLbs * weightCostPerLb` with
`weightLbs = 0`): Σ(`perUnitTax * billableUnits`) = 20, which misses
`tax = 10` by far more than 0.01. -/
theorem allocation_reconciliation_cex :
    ((10 : ℚ) = 100 * (10 / 100)) ∧
    ((0 : ℚ) = 0 * 7) ∧
    ((allocateLines [{ id := "A", stock := 0 }] 10 0 0
        [{ itemId := "A", quantity := 1, unitCost := 100, hasSubItems := true,
           subItemsQty := some 1 }]).map
      fun al => al.perUnitTax.getD 0 * lineUnits al).sum = 20 ∧
    ¬ |(20 : ℚ) - 10| ≤ 1 / 100 := by
  refine ⟨by norm_num, by norm_num, ?_, by norm_num⟩
  norm_num [allocateLines, allocLine, totalUnits, totalWeight, lineUnits, itemWeight]

/-- Witness for C2 (amended) at a one-line purchase: item weight 1, quantity 2,
`unitCost = 10`, `subtotal = 20`, `rate = 10`, `tax = 2`, `shippingUS = 6`,
`shippingIntl = 4`. -/
theorem allocation_reconciliation_witness :
    ((allocateLines [{ id := "A", stock := 0, weightLbs := some 1 }] 10 6 4
        [{ itemId := "A", quantity := 2, unitCost := 10 }]).map
      fun al => al.perUnitTax.getD 0 * lineUnits al).sum = 2 :=
  (allocation_reconciliation [{ id := "A", stock := 0, weightLbs := some 1 }] 10 6 4 20 2
    [{ itemId := "A", quantity := 2, unitCost := 10 }]
    (by norm_num [lineUnits]) (by norm_num)
    (by norm_num [totalUnits, lineUnits])
    (by norm_num)
    (by norm_num [totalWeight, itemWeight, lineUnits])
    (by norm_num [lineUnits])).1

/-! ## Claim C9 -/

theorem allocLine_idem (items : List InventoryItem) (r s i u w : ℚ) (l : PurchaseLine) :
    allocLine items r s i u w (allocLine items r s i u w l) = allocLine items r s i u w l := rfl

/-- C9: the Allocation Engine of the save path is idempotent — re-running it
on its own output (same items, footer totals and tax rate) reproduces exactly
the same per-line allocations. -/
theorem allocation_idempotent (items : List InventoryItem) (rate shipUS shipIntl : ℚ)
    (lines : List PurchaseLine) :
    allocateLines items rate shipUS shipIntl (allocateLines items rate shipUS shipIntl lines) =
      allocateLines items rate shipUS shipIntl lines := by
  have hU : totalUnits (allocateLines items rate shipUS shipIntl lines) = totalUnits lines := by
    rw [totalUnits_eq_sum, totalUnits_eq_sum, allocateLines, List.map_map]
    exact congrArg List.sum (List.map_congr_left fun l _ => rfl)
  have hW : totalWeight items (allocateLines items rate shipUS shipIntl lines) =
      totalWeight items lines := by
    rw [totalWeight_eq_sum, totalWeight_eq_sum, allocateLines, List.map_map]
    exact congrArg List.sum (List.map_congr_left fun l _ => rfl)
  show (allocateLines items rate shipUS shipIntl lines).map
      (allocLine items rate shipUS shipIntl
        (totalUnits (allocateLines items rate shipUS shipIntl lines))
        (totalWeight items (allocateLines items rate shipUS shipIntl lines)))
    = allocateLines items rate shipUS shipIntl lines
  rw [hU, hW, allocateLines, List.map_map]
  exact List.map_congr_left fun l _ =>
    allocLine_idem items rate shipUS shipIntl (totalUnits lines) (totalWeight items lines) l

/-! ## Claim C1 -/

/-- C1 (amended): the Recalculation Sweep reproduces the save path's
allocations exactly when the purchase's `tax` footer was auto-computed as
`subtotal * rate/100` with `subtotal > 0` and no line has zero quantity;
its shipping formulas always coincide with the save path, but `perUnitTax`
is derived by redistributing the `tax` footer across lines by cost share
(`tax * lineCost / (subtotal * quantity)`), not as `unitCost * rate/100`. -/
theorem recalc_matches_save_when_tax_auto (items : List InventoryItem)
    (rate shippingUS shippingIntl subtotal tax : ℚ) (lines : List PurchaseLine)
    (hsub : 0 < subtotal)
    (htax : tax = subtotal * (rate / 100))
    (hq : ∀ l ∈ lines, l.quantity ≠ 0) :
    recalcLines items tax shippingUS shippingIntl subtotal lines =
      allocateLines items rate shippingUS shippingIntl lines := by
  unfold recalcLines allocateLines
  apply List.map_congr_left
  intro l hl
  have hq' := hq l hl
  have hsub' : subtotal ≠ 0 := ne_of_gt hsub
  have key : tax * (l.quantity * l.unitCost) / (subtotal * l.quantity) =
      l.unitCost * (rate / 100) := by
    rw [htax]; field_simp; ring
  simp [recalcLine, allocLine, hsub, key]

/-- C1 counterexample: a stored purchase whose `tax` footer (20) was manually
overridden away from the auto value (`subtotal * rate/100 = 100 * 10% = 10`):
the sweep allocates `perUnitTax = 20` on its single line (redistributing the
footer by cost share), while the save path's engine yields
`perUnitTax = unitCost * rate/100 = 10` — the two disagree, refuting the
frozen claim that the sweep computes the same `perUnitTax` formula. -/
theorem recalc_tax_redistributes_cex :
    ((recalcLines [{ id := "A", stock := 0 }] 20 0 0 100
        [{ itemId := "A", quantity := 1, unitCost := 100 }]).map fun al => al.perUnitTax)
      = [some 20] ∧
    ((allocateLines [{ id := "A", stock := 0 }] 10 0 0
        [{ itemId := "A", quantity := 1, unitCost := 100 }]).map fun al => al.perUnitTax)
      = [some 10] ∧
    (20 : ℚ) ≠ 10 := by
  refine ⟨?_, ?_, by norm_num⟩ <;>
    norm_num [recalcLines, recalcLine, allocateLines, allocLine, totalUnits, totalWeight,
      lineUnits, itemWeight]

/-- Witness for C1 (amended) at a one-line purchase with `subtotal = 100`,
`rate = 10`, auto `tax = 10`. -/
theorem recalc_matches_save_witness :
    recalcLines [{ id := "A", stock := 0, weightLbs := some 1 }] 10 5 3 100
        [{ itemId := "A", quantity := 1, unitCost := 100 }] =
      allocateLines [{ id := "A", stock := 0, weightLbs := some 1 }] 10 5 3
        [{ itemId := "A", quantity := 1, unitCost := 100 }] :=
  recalc_matches_save_when_tax_auto [{ id := "A", stock := 0, weightLbs := some 1 }] 10 5 3 100 10
    [{ itemId := "A", quantity := 1, unitCost := 100 }]
    (by norm_num) (by norm_num) (by norm_num)

/-! ## Claim C5 -/

theorem availableCash_nonneg (db : DB) : 0 ≤ calculateAvailableCash db :=
  le_max_left 0 _

theorem totalWithdrawn_append (db : DB) (w : CashWithdrawal) :
    calculateTotalWithdrawn { db with cashWithdrawals := db.cashWithdrawals ++ [w] } =
      calculateTotalWithdrawn db + w.amount := by
  simp [calculateTotalWithdrawn, foldl_add_eq (fun x : CashWithdrawal => x.amount)]

/-- C5: `processTransactionWithCash` passes income/discount transactions
through with the state unchanged, no withdrawal and no error; for expense/fee
the required cash is the full `amount` under `paymentSource = revenue`, only
`cashAmount` under `mixed`, and `0` under `external` (or an absent source);
when the required cash exceeds `availableCash` it returns the unmodified
input state plus an error description instead of throwing, and otherwise it
succeeds, growing `totalWithdrawn` by exactly the required cash and leaving
every other state component untouched.  Amounts are assumed nonnegative
(`0 ≤ txRequiredCash t`), as the data model requires of withdrawals. -/
theorem processTransaction_spec (db : DB) (t : Transaction)
    (hreq : 0 ≤ txRequiredCash t) :
    ((t.type = TransactionType.income ∨ t.type = TransactionType.discount) →
      processTransactionWithCash db t = ⟨db, [], none⟩) ∧
    ((t.type = TransactionType.expense ∨ t.type = TransactionType.fee) →
      ((t.paymentSource = some PaymentSource.revenue → txRequiredCash t = t.amount) ∧
       (t.paymentSource = some PaymentSource.mixed → txRequiredCash t = t.cashAmount.getD 0) ∧
       ((t.paymentSource = some PaymentSource.external ∨ t.paymentSource = none) →
         txRequiredCash t = 0)) ∧
      (calculateAvailableCash db < txRequiredCash t →
        (processTransactionWithCash db t).updatedDb = db ∧
        (processTransactionWithCash db t).withdrawals = [] ∧
        (processTransactionWithCash db t).error ≠ none) ∧
      (txRequiredCash t ≤ calculateAvailableCash db →
        (processTransactionWithCash db t).error = none ∧
        calculateTotalWithdrawn (processTransactionWithCash db t).updatedDb =
          calculateTotalWithdrawn db + txRequiredCash t ∧
        (processTransactionWithCash db t).updatedDb.sales = db.sales ∧
        (processTransactionWithCash db t).updatedDb.transactions = db.transactions ∧
        (processTransactionWithCash db t).updatedDb.items = db.items ∧
        (processTransactionWithCash db t).updatedDb.purchases = db.purchases)) := by
  refine ⟨fun hty => ?_, fun hty => ?_⟩
  · unfold processTransactionWithCash
    rw [if_pos hty]
  · have htyn : ¬ (t.type = TransactionType.income ∨ t.type = TransactionType.discount) := by
      rcases hty with h | h <;> rw [h] <;> decide
    have hproc : processTransactionWithCash db t =
        (if txRequiredCash t > 0 then
          if !canWithdrawCash db (txRequiredCash t) then
            ⟨db, [], some "Insufficient cash available."⟩
          else
            ⟨{ db with cashWithdrawals := db.cashWithdrawals ++
                [createCashWithdrawal (txRequiredCash t) ("Transaction: " ++ t.description)
                  none (some (t.type.label ++ " - " ++ t.category))] },
              [createCashWithdrawal (txRequiredCash t) ("Transaction: " ++ t.description)
                none (some (t.type.label ++ " - " ++ t.category))], none⟩
        else ⟨db, [], none⟩) := by
      unfold processTransactionWithCash
      rw [if_neg htyn]
    refine ⟨⟨fun hps => ?_, fun hps => ?_, fun hps => ?_⟩, fun hlt => ?_, fun hle => ?_⟩
    · simp [txRequiredCash, hps]
    · by_cases hca : t.cashAmount.getD 0 ≠ 0
      · simp [txRequiredCash, hps, hca]
      · push_neg at hca
        simp [txRequiredCash, hps, hca]
    · rcases hps with h | h <;> simp [txRequiredCash, h]
    · have hpos : 0 < txRequiredCash t := lt_of_le_of_lt (availableCash_nonneg db) hlt
      have hcw : canWithdrawCash db (txRequiredCash t) = false := by
        cases hb : canWithdrawCash db (txRequiredCash t)
        · rfl
        · exact absurd ((canWithdrawCash_iff db _).mp hb).2 (not_le.mpr hlt)
      rw [hproc, if_pos hpos, hcw]
      refine ⟨rfl, rfl, by simp⟩
    · rcases eq_or_lt_of_le hreq with h0 | h0
      · have hn : ¬ txRequiredCash t > 0 := by rw [← h0]; exact lt_irrefl 0
        rw [hproc, if_neg hn]
        refine ⟨rfl, by rw [← h0]; simp, rfl, rfl, rfl, rfl⟩
      · have hcw : canWithdrawCash db (txRequiredCash t) = true :=
          (canWithdrawCash_iff db _).mpr ⟨h0, hle⟩
        rw [hproc, if_pos h0, hcw]
        refine ⟨rfl, ?_, rfl, rfl, rfl, rfl⟩
        simpa using totalWithdrawn_append db
          (createCashWithdrawal (txRequiredCash t) ("Transaction: " ++ t.description)
            none (some (t.type.label ++ " - " ++ t.category)))

/-- Witness for C5: an expense of 30 paid from business cash against a state
holding 100 of revenue grows the withdrawn total by exactly 30. -/
theorem processTransaction_spec_witness :
    calculateTotalWithdrawn
        (processTransactionWithCash
          { items := [], purchases := [], sales := [{ totalAmount := 100 }], settings := {},
            cashWithdrawals := [], transactions := [] }
          { type := TransactionType.expense, amount := 30,
            paymentSource := some PaymentSource.revenue }).updatedDb =
      calculateTotalWithdrawn
        { items := [], purchases := [], sales := [{ totalAmount := 100 }], settings := {},
          cashWithdrawals := [], transactions := [] } +
      txRequiredCash
        { type := TransactionType.expense, amount := 30,
          paymentSource := some PaymentSource.revenue } :=
  (((processTransaction_spec _ _ (by norm_num [txRequiredCash])).2 (Or.inl rfl)).2.2
    (by norm_num [txRequiredCash, calculateAvailableCash, calculateTotalRevenue,
      calculateTotalIncome, calculateTotalWithdrawn])).2.1

/-! ## Claim C8 -/

theorem list_sum_nonneg_all_zero {ls : List ℚ} (h0 : ∀ x ∈ ls, 0 ≤ x) (hs : ls.sum = 0) :
    ∀ x ∈ ls, x = 0 := by
  induction ls with
  | nil => simp
  | cons a as ih =>
    have ha : 0 ≤ a := h0 a (by simp)
    have has : 0 ≤ as.sum := List.sum_nonneg fun x hx => h0 x (by simp [hx])
    have hsum : a + as.sum = 0 := by simpa using hs
    have ha0 : a = 0 := by linarith
    have hs0 : as.sum = 0 := by linarith
    intro x hx
    rcases List.mem_cons.mp hx with h | h
    · rw [h, ha0]
    · exact ih (fun y hy => h0 y (by simp [hy])) hs0 x h

/-- C8 (amended): allocation never divides by a degenerate denominator —
with `totalUnits = 0` (and billable units nonnegative per line) both per-unit
shipping components are 0 on every line, and with all referenced item weights
zero or missing the international component is 0 on every line; `perUnitTax`,
however, is always `unitCost * rate/100` and is nonzero whenever line cost
and rate are (the frozen claim's "all per-unit shipping/tax fields == 0" is
refuted by the counterexample). -/
theorem zero_denominator_safety (items : List InventoryItem) (rate shipUS shipIntl : ℚ)
    (lines : List PurchaseLine) (hnn : ∀ l ∈ lines, 0 ≤ lineUnits l) :
    (totalUnits lines = 0 →
      ((allocateLines items rate shipUS shipIntl lines).map fun al => al.perUnitShippingUS)
        = (lines.map fun _ => some (0 : ℚ)) ∧
      ((allocateLines items rate shipUS shipIntl lines).map fun al => al.perUnitShippingIntl)
        = (lines.map fun _ => some (0 : ℚ))) ∧
    ((∀ l ∈ lines, itemWeight items l.itemId = 0) →
      ((allocateLines items rate shipUS shipIntl lines).map fun al => al.perUnitShippingIntl)
        = (lines.map fun _ => some (0 : ℚ))) ∧
    (((allocateLines items rate shipUS shipIntl lines).map fun al => al.perUnitTax)
        = lines.map fun l => some (l.unitCost * (rate / 100))) := by
  refine ⟨fun hU => ⟨?_, ?_⟩, fun hw0 => ?_, ?_⟩
  · rw [allocateLines, List.map_map]
    apply List.map_congr_left
    intro l _
    simp [Function.comp_apply, hU]
  · have hz : ∀ l ∈ lines, lineUnits l = 0 := by
      have hz0 : ∀ x ∈ lines.map lineUnits, (0 : ℚ) ≤ x := fun x hx => by
        rcases List.mem_map.mp hx with ⟨l, hl, rfl⟩
        exact hnn l hl
      have hsum : (lines.map lineUnits).sum = 0 := by rw [← totalUnits_eq_sum]; exact hU
      have := list_sum_nonneg_all_zero hz0 hsum
      intro l hl
      exact this (lineUnits l) (List.mem_map.mpr ⟨l, hl, rfl⟩)
    rw [allocateLines, List.map_map]
    apply List.map_congr_left
    intro l hl
    have hzl : ¬ lineUnits l > 0 := by rw [hz l hl]; exact lt_irrefl 0
    simp [Function.comp_apply, hzl]
  · have hW : totalWeight items lines = 0 := by
      rw [totalWeight_eq_sum]
      have : (lines.map fun l => itemWeight items l.itemId * lineUnits l) =
          lines.map fun _ => (0 : ℚ) := by
        apply List.map_congr_left
        intro l hl
        rw [hw0 l hl, zero_mul]
      rw [this]
      simp
    have hWn : ¬ totalWeight items lines > 0 := by rw [hW]; exact lt_irrefl 0
    rw [allocateLines, List.map_map]
    apply List.map_congr_left
    intro l hl
    by_cases hzl : lineUnits l > 0 <;>
      simp [Function.comp_apply, hWn, hzl]
  · rw [allocateLines, List.map_map]
    apply List.map_congr_left
    intro l _
    simp [Function.comp_apply]

/-- C8 counterexample: a purchase draft with `totalUnits = 0` (single line of
quantity 0) but `unitCost = 100` and `rate = 10` still gets
`perUnitTax = 10 ≠ 0`, refuting "all per-unit shipping/tax fields equal 0". -/
theorem zero_units_tax_cex :
    totalUnits [{ itemId := "A", quantity := 0, unitCost := 100 }] = 0 ∧
    ((allocateLines [{ id := "A", stock := 0 }] 10 5 3
        [{ itemId := "A", quantity := 0, unitCost := 100 }]).map fun al => al.perUnitTax)
      = [some 10] ∧
    (10 : ℚ) ≠ 0 := by
  refine ⟨by norm_num [totalUnits, lineUnits], ?_, by norm_num⟩
  norm_num [allocateLines, allocLine, totalUnits, totalWeight, lineUnits, itemWeight]

/-- Witness for C8 (amended) at the same degenerate draft: both shipping
components come out 0. -/
theorem zero_denominator_safety_witness :
    ((allocateLines [{ id := "A", stock := 0 }] 10 5 3
        [{ itemId := "A", quantity := 0, unitCost := 100 }]).map fun al => al.perUnitShippingUS)
      = [some 0] :=
  ((zero_denominator_safety [{ id := "A", stock := 0 }] 10 5 3
    [{ itemId := "A", quantity := 0, unitCost := 100 }]
    (by norm_num [lineUnits])).1
    (by norm_num [totalUnits, lineUnits])).1

/-! ## Claim C7 -/

theorem foldl_map_comm (f : PurchaseLine → InventoryItem → InventoryItem) :
    ∀ (ls : List PurchaseLine) (items : List InventoryItem),
      ls.foldl (fun acc l => acc.map (f l)) items =
        items.map fun it => ls.foldl (fun i l => f l i) it := by
  intro ls
  induction ls with
  | nil => intro items; simp
  | cons l ls ih =>
    intro items
    simp only [List.foldl_cons]
    rw [ih, List.map_map]
    rfl

theorem costStep_stock (l : PurchaseLine) (it : InventoryItem) :
    (costStep l it).stock = it.stock := by
  by_cases h : it.id = l.itemId <;> simp [costStep, refreshCostFields, h]

theorem costStep_id (l : PurchaseLine) (it : InventoryItem) :
    (costStep l it).id = it.id := by
  by_cases h : it.id = l.itemId <;> simp [costStep, refreshCostFields, h]

theorem costRefreshItem_stock (enriched : List PurchaseLine) :
    ∀ it : InventoryItem, (costRefreshItem enriched it).stock = it.stock := by
  induction enriched with
  | nil => intro it; rfl
  | cons l ls ih =>
    intro it
    show (costRefreshItem ls (costStep l it)).stock = it.stock
    rw [ih (costStep l it), costStep_stock]

theorem refresh_overwrite (a b : PurchaseLine) (it : InventoryItem) :
    refreshCostFields a (refreshCostFields b it) = refreshCostFields a it := rfl

theorem costRefreshItem_eq_lastLine (enriched : List PurchaseLine) :
    ∀ it : InventoryItem, costRefreshItem enriched it =
      match lastLineFor enriched it.id with
      | some l => refreshCostFields l it
      | none => it := by
  induction enriched with
  | nil => intro it; rfl
  | cons l ls ih =>
    intro it
    show costRefreshItem ls (costStep l it) = _
    by_cases h : it.id = l.itemId
    · have hstep : costStep l it = refreshCostFields l it := by rw [costStep, if_pos h]
      have hpl : decide (l.itemId = it.id) = true := by simp [h.symm]
      rw [hstep, ih (refreshCostFields l it)]
      have hid : (refreshCostFields l it).id = it.id := rfl
      rw [hid, lastLineFor, lastLineFor, List.filter_cons, hpl, if_pos rfl]
      cases hfl : ls.filter (fun x => decide (x.itemId = it.id)) with
      | nil => rfl
      | cons b bs =>
        rw [List.getLast?_cons_cons]
        cases hgl : (b :: bs).getLast? with
        | none => simp at hgl
        | some last => exact refresh_overwrite last l it
    · have hstep : costStep l it = it := by rw [costStep, if_neg h]
      have hpl : decide (l.itemId = it.id) = false := by simpa using Ne.symm h
      rw [hstep, ih it, lastLineFor, lastLineFor, List.filter_cons, hpl,
        if_neg Bool.false_ne_true]

/-- C7 (amended): when editing a purchase, the cost-only path is selected by
`hasQuantityChanges` — which compares line counts and, per old line, the
billable units of the *first* new line with the same `itemId` (not per-item
billable-unit totals) — and on that path every item's stock is preserved
while the cost/price fields are refreshed from the allocations of the last
enriched line referencing the item. -/
theorem cost_only_edit_frame (ip : Purchase) (enriched : List PurchaseLine)
    (items : List InventoryItem)
    (hq : hasQuantityChanges ip.lines enriched = false) :
    updateItemsForSave (some ip) enriched items = items.map (costRefreshItem enriched) ∧
    (∀ it : InventoryItem, (costRefreshItem enriched it).stock = it.stock) ∧
    (∀ it : InventoryItem, costRefreshItem enriched it =
      match lastLineFor enriched it.id with
      | some l => refreshCostFields l it
      | none => it) := by
  refine ⟨?_, costRefreshItem_stock enriched, costRefreshItem_eq_lastLine enriched⟩
  show (if hasQuantityChanges ip.lines enriched then _ else _) = _
  rw [hq]
  show enriched.foldl (fun acc l => acc.map (costStep l)) items = _
  exact foldl_map_comm costStep enriched items

/-- C7 counterexample: old purchase `[A×5]` edited to `[A×2, A×3]` — the
per-item billable totals are unchanged (5 = 2+3), yet `hasQuantityChanges`
(line-count comparison) selects the stock-moving path and the item's stock
moves from 10 to 5, refuting "no item's stock is changed" and the claimed
per-item-total path selection. -/
theorem per_item_totals_cex :
    perItemBillableTotal [{ itemId := "A", quantity := 5, unitCost := 1 }] "A" =
      perItemBillableTotal [{ itemId := "A", quantity := 2, unitCost := 1 },
        { itemId := "A", quantity := 3, unitCost := 1 }] "A" ∧
    ((updateItemsForSave
        (some { id := "p", lines := [{ itemId := "A", quantity := 5, unitCost := 1 }] })
        [{ itemId := "A", quantity := 2, unitCost := 1 },
         { itemId := "A", quantity := 3, unitCost := 1 }]
        [{ id := "A", stock := 10 }]).map fun it => it.stock) ≠ [(10 : ℚ)] := by
  constructor
  · norm_num [perItemBillableTotal, lineUnits]
  · norm_num [updateItemsForSave, hasQuantityChanges, stockStep, refreshCostFields,
      lineUnits, max_def]

/-- Witness for C7 (amended): a footer-only edit (same single line, changed
`unitCost`) keeps the item list equal to a pure cost refresh. -/
theorem cost_only_edit_frame_witness :
    updateItemsForSave
        (some { id := "p", lines := [{ itemId := "A", quantity := 2, unitCost := 1 }] })
        [{ itemId := "A", quantity := 2, unitCost := 3 }]
        [{ id := "A", stock := 7 }] =
      [costRefreshItem [{ itemId := "A", quantity := 2, unitCost := 3 }]
        { id := "A", stock := 7 }] :=
  (cost_only_edit_frame _ _ _ (by norm_num [hasQuantityChanges, lineUnits])).1

/-! ## Claim C10 -/

/-- C10 (amended): the purchase-driven recomputation prices with factor pair
(1.25, 1.4) and profits exactly `price - unitCostPostShipping`; the manual
item-entry form prices with the distinct factor pair (1.2, 1.3) but its
profits subtract `costPostShipping || costPreShipping || 0`, which equals the
landed cost only when `costPostShipping ≠ 0` (hypothesis here; see the
counterexample for `costPostShipping = 0`). -/
theorem pricing_bands (l : PurchaseLine) (it : InventoryItem) (costPost costPre : ℚ)
    (hcp : costPost ≠ 0) :
    ((refreshCostFields l it).minPrice =
        some ((⌈(l.unitCostPostShipping.getD l.unitCost) * 1.25⌉ : ℤ) : ℚ) ∧
     (refreshCostFields l it).maxPrice =
        some ((⌈(l.unitCostPostShipping.getD l.unitCost) * 1.4⌉ : ℤ) : ℚ) ∧
     (refreshCostFields l it).minProfit =
        some (((⌈(l.unitCostPostShipping.getD l.unitCost) * 1.25⌉ : ℤ) : ℚ) -
          l.unitCostPostShipping.getD l.unitCost) ∧
     (refreshCostFields l it).maxProfit =
        some (((⌈(l.unitCostPostShipping.getD l.unitCost) * 1.4⌉ : ℤ) : ℚ) -
          l.unitCostPostShipping.getD l.unitCost)) ∧
    itemEntryPricing costPost costPre =
      { minPrice := ((⌈costPost * 1.2⌉ : ℤ) : ℚ)
        maxPrice := ((⌈costPost * 1.3⌉ : ℤ) : ℚ)
        minProfit := ((⌈costPost * 1.2⌉ : ℤ) : ℚ) - costPost
        maxProfit := ((⌈costPost * 1.3⌉ : ℤ) : ℚ) - costPost } := by
  refine ⟨⟨rfl, rfl, rfl, rfl⟩, ?_⟩
  simp [itemEntryPricing, hcp]

/-- C10 counterexample: at manual item entry with `costPostShipping = 0` and
`costPreShipping = 5`, the suggested `minPrice` is 0 but `minProfit = -5`,
not `minPrice - unitCostPostShipping = 0` — the profit base falls back to
`costPreShipping`. -/
theorem pricing_profit_base_cex :
    (itemEntryPricing 0 5).minPrice = 0 ∧
    (itemEntryPricing 0 5).minProfit = -5 ∧
    ((-5 : ℚ) ≠ 0 - 0) := by
  refine ⟨?_, ?_, by norm_num⟩ <;> norm_num [itemEntryPricing]

/-- Witness for C10 (amended) at `costPostShipping = 4`, `costPreShipping = 0`. -/
theorem pricing_bands_witness :
    itemEntryPricing 4 0 =
      { minPrice := ((⌈(4 : ℚ) * 1.2⌉ : ℤ) : ℚ)
        maxPrice := ((⌈(4 : ℚ) * 1.3⌉ : ℤ) : ℚ)
        minProfit := ((⌈(4 : ℚ) * 1.2⌉ : ℤ) : ℚ) - 4
        maxProfit := ((⌈(4 : ℚ) * 1.3⌉ : ℤ) : ℚ) - 4 } :=
  (pricing_bands { itemId := "A", quantity := 1, unitCost := 1 } { id := "A", stock := 0 } 4 0
    (by norm_num)).2

end NanisInventory
